import Mathlib

/-!
Verification of the Rabbit language front end.

The embedding follows the two source files:
  * src/rabbit_parser.py — a PLY lexer whose t_BUILTIN rule is a regex
    alternation of the built-in names guarded by the negative lookahead
    (?![a-zA-Z0-9_\.]), followed by a Lark grammar with precedence tiers
    expr (+,-) over term (*,/,^) over factor, and a transformer building
    tagged tuples.
  * src/rabbit-lang/cli.py — a minimal Lark dialect with a tree-walking
    evaluator over one mutable environment, plus a second copy of the
    rabbit parser whose t_BUILTIN rule instead scans the whole dotted
    identifier run [a-zA-Z_][a-zA-Z0-9_]*(?:\.[a-zA-Z_][a-zA-Z0-9_]*)* and
    classifies it by membership in the registry list.

Modelling conventions: Python floats are modelled as exact rationals (every
numeric literal in the claims is integral, where the two agree); Python's
str() of a float is modelled exactly on integral values as the integer text
followed by ".0"; character classes are the ASCII classes written in the
source regexes; recursion that the source runs on the call stack is given
an explicit fuel argument so that every definition computes.
-/

namespace Rabbit

/-- Character class [A-Za-z_], the start of an identifier segment. -/
def isIdentStartChar (c : Char) : Bool := c.isAlpha || c = '_'

/-- Character class [A-Za-z0-9_], identifier continuation characters. -/
def isIdentChar (c : Char) : Bool := c.isAlphanum || c = '_'

/-- Characters discarded by both PLY lexers (t_ignore = " \t\n"). -/
def isWsChar (c : Char) : Bool := c = ' ' || c = '\t' || c = '\n'

/-- The built-in registry, in source order.  rabbit_parser.py builds it as
builtin_functions ++ builtin_constants; the copy in cli.py lists the same
28 names directly. -/
def builtinIdentifiers : List String :=
  ["json.parse", "json.stringify",
   "http.get", "http.post", "http.fetch",
   "len", "split", "join", "trim",
   "sqrt", "pow", "abs", "sin", "cos", "tan",
   "rand", "randint", "max", "min", "sum",
   "map", "filter", "reduce", "sort", "reverse",
   "pi", "e", "inf"]

/-- Token kinds of the PLY lexers (the `tokens` tuple). -/
inductive TokKind where
  | NUMBER | ID | BUILTIN
  | PLUS | MINUS | TIMES | DIVIDE | POWER
  | LPAREN | RPAREN | LBRACK | RBRACK
  | ASSIGN | COMMA | COLON | SEMICOLON
deriving DecidableEq

/-- A PLY token: kind plus its payload (t.value).  NUMBER carries the
numeric value the lexer computed (t.value is overwritten with float(...)),
ID and BUILTIN carry the matched text, POWER carries the matched glyph
(one of ^, ², ³); the remaining operators have a fixed spelling. -/
inductive Tok where
  | NUMBER (v : ℚ)
  | ID (name : String)
  | BUILTIN (name : String)
  | PLUS | MINUS | TIMES | DIVIDE
  | POWER (glyph : Char)
  | LPAREN | RPAREN | LBRACK | RBRACK
  | ASSIGN | COMMA | COLON | SEMICOLON
deriving DecidableEq

/-- The kind of a token, forgetting payloads. -/
def Tok.kind : Tok → TokKind
  | .NUMBER _ => .NUMBER
  | .ID _ => .ID
  | .BUILTIN _ => .BUILTIN
  | .PLUS => .PLUS
  | .MINUS => .MINUS
  | .TIMES => .TIMES
  | .DIVIDE => .DIVIDE
  | .POWER _ => .POWER
  | .LPAREN => .LPAREN
  | .RPAREN => .RPAREN
  | .LBRACK => .LBRACK
  | .RBRACK => .RBRACK
  | .ASSIGN => .ASSIGN
  | .COMMA => .COMMA
  | .COLON => .COLON
  | .SEMICOLON => .SEMICOLON

/-- Greedy match of the dotted identifier regex
[a-zA-Z_][a-zA-Z0-9_]*(?:\.[a-zA-Z_][a-zA-Z0-9_]*)* starting after its
first character has been checked: consumes a maximal run of identifier
characters, and after a dot continues only when the dot is immediately
followed by an identifier start character (otherwise the dot is left in
the remainder, exactly as the regex group fails without consuming it). -/
def scanIdent : List Char → List Char × List Char
  | [] => ([], [])
  | c :: cs =>
    if isIdentChar c then (c :: (scanIdent cs).1, (scanIdent cs).2)
    else if c = '.' then
      match cs with
      | d :: ds =>
        if isIdentStartChar d then (c :: d :: (scanIdent ds).1, (scanIdent ds).2)
        else ([], c :: cs)
      | [] => ([], c :: cs)
    else ([], c :: cs)

/-- Greedy match of the NUMBER regex \d+(_?\d+)*(\.\d+(_?\d+)*)? after the
leading digit has been checked.  The flag records whether the decimal dot
has already been consumed.  An underscore or a dot is consumed only
together with a following digit (the regex group otherwise fails without
consuming), and at most one dot is consumed. -/
def scanNum : Bool → List Char → List Char × List Char
  | _, [] => ([], [])
  | seenDot, c :: cs =>
    if c.isDigit then (c :: (scanNum seenDot cs).1, (scanNum seenDot cs).2)
    else if c = '_' then
      match cs with
      | d :: ds =>
        if d.isDigit then (c :: d :: (scanNum seenDot ds).1, (scanNum seenDot ds).2)
        else ([], c :: cs)
      | [] => ([], c :: cs)
    else if c = '.' && seenDot = false then
      match cs with
      | d :: ds =>
        if d.isDigit then (c :: d :: (scanNum true ds).1, (scanNum true ds).2)
        else ([], c :: cs)
      | [] => ([], c :: cs)
    else ([], c :: cs)

/-- Value of a digit string, most significant first. -/
def digitsVal (ds : List Char) : Nat :=
  ds.foldl (fun a c => 10 * a + (c.toNat - '0'.toNat)) 0

/-- Split a character list at the first dot (the dot is dropped). -/
def splitDot : List Char → List Char × List Char
  | [] => ([], [])
  | c :: cs =>
    if c = '.' then ([], cs)
    else
      let (a, b) := splitDot cs
      (c :: a, b)

/-- Numeric value of a matched NUMBER lexeme:
float(text.replace('_', '')), modelled exactly as a rational. -/
def numValue (cs : List Char) : ℚ :=
  let cleaned := cs.filter (fun c => c ≠ '_')
  let (ip, fp) := splitDot cleaned
  (digitsVal ip : ℚ) + (digitsVal fp : ℚ) / (10 : ℚ) ^ fp.length

/-- The single-character operator and punctuation rules shared by both
lexers; t_POWER = \^|²|³ also accepts the two superscript glyphs. -/
def opTok (c : Char) : Option Tok :=
  if c = '+' then some .PLUS
  else if c = '-' then some .MINUS
  else if c = '*' then some .TIMES
  else if c = '/' then some .DIVIDE
  else if c = '^' || c = '²' || c = '³' then some (.POWER c)
  else if c = '(' then some .LPAREN
  else if c = ')' then some .RPAREN
  else if c = '[' then some .LBRACK
  else if c = ']' then some .RBRACK
  else if c = '=' then some .ASSIGN
  else if c = ',' then some .COMMA
  else if c = ':' then some .COLON
  else if c = ';' then some .SEMICOLON
  else none

/-- Outcome of one lexer step: a token, an illegal character (t_error
prints a diagnostic and skips it), or end of input. -/
inductive LexRes where
  | tok (t : Tok)
  | bad (c : Char)
  | eof
deriving DecidableEq

/-- One step of the registry-lookup lexer (the RabbitLexer of the copy in
cli.py): after discarding ignored whitespace, the master match tries the
function rules in definition order — t_SEMICOLON, t_BUILTIN (the whole
dotted identifier run, classified BUILTIN or ID by registry membership),
t_NUMBER — and then the single-character string rules.  The t_ID function
rule of that lexer is unreachable: t_BUILTIN matches every string t_ID
matches. -/
def lexStepReg (cs : List Char) : LexRes × List Char :=
  match cs.dropWhile isWsChar with
  | [] => (.eof, [])
  | c :: cs' =>
    if c = ';' then (.tok .SEMICOLON, cs')
    else if isIdentStartChar c then
      let (run, rest) := scanIdent (c :: cs')
      let s := String.mk run
      (.tok (if builtinIdentifiers.contains s then .BUILTIN s else .ID s), rest)
    else if c.isDigit then
      let (run, rest) := scanNum false (c :: cs')
      (.tok (.NUMBER (numValue run)), rest)
    else
      match opTok c with
      | some t => (.tok t, cs')
      | none => (.bad c, cs')

/-- Prefix stripping: drops the pattern from the front of the input, or
fails. -/
def stripPre : List Char → List Char → Option (List Char)
  | [], cs => some cs
  | _ :: _, [] => none
  | p :: ps, c :: cs => if c = p then stripPre ps cs else none

/-- The t_BUILTIN rule of rabbit_parser.py: a regex alternation of the 28
built-in names, each guarded by the negative lookahead (?![a-zA-Z0-9_\.]).
Alternatives are tried in source order; the first literal that is a prefix
of the input and is not followed by an identifier character or a dot
matches. -/
def tryAltFrom : List String → List Char → Option (String × List Char)
  | [], _ => none
  | b :: bs, cs =>
    match stripPre b.data cs with
    | some rest =>
      match rest with
      | [] => some (b, [])
      | d :: _ =>
        if isIdentChar d || d = '.' then tryAltFrom bs cs
        else some (b, rest)
    | none => tryAltFrom bs cs

/-- Maximal run of plain identifier characters [a-zA-Z0-9_]* (the t_ID
rule of rabbit_parser.py; dots are not part of this class). -/
def scanPlainIdent : List Char → List Char × List Char
  | [] => ([], [])
  | c :: cs =>
    if isIdentChar c then (c :: (scanPlainIdent cs).1, (scanPlainIdent cs).2)
    else ([], c :: cs)

/-- One step of the alternation lexer (rabbit_parser.py): after discarding
whitespace the master match tries t_BUILTIN (the alternation with
lookahead), then t_ID (which re-classifies the matched run as BUILTIN when
its text is in builtin_identifiers), then t_NUMBER, then the
single-character string rules; anything else is an illegal character that
t_error skips. -/
def lexStepAlt (cs : List Char) : LexRes × List Char :=
  match cs.dropWhile isWsChar with
  | [] => (.eof, [])
  | c :: cs' =>
    match tryAltFrom builtinIdentifiers (c :: cs') with
    | some (b, rest) => (.tok (.BUILTIN b), rest)
    | none =>
      if isIdentStartChar c then
        let (run, rest) := scanPlainIdent (c :: cs')
        let s := String.mk run
        (.tok (if builtinIdentifiers.contains s then .BUILTIN s else .ID s), rest)
      else if c.isDigit then
        let (run, rest) := scanNum false (c :: cs')
        (.tok (.NUMBER (numValue run)), rest)
      else
        match opTok c with
        | some t => (.tok t, cs')
        | none => (.bad c, cs')

/-- Driver of a PLY lexer: iterate a step function, collecting the token
stream and the illegal characters reported by t_error, in order.  Every
step that does not end the input consumes at least one character, so fuel
equal to the input length suffices. -/
def lexRun (step : List Char → LexRes × List Char) : Nat → List Char → List Tok × List Char
  | 0, _ => ([], [])
  | f + 1, cs =>
    match step cs with
    | (.eof, _) => ([], [])
    | (.tok t, rest) =>
      let (ts, es) := lexRun step f rest
      (t :: ts, es)
    | (.bad c, rest) =>
      let (ts, es) := lexRun step f rest
      (ts, c :: es)

/-- Full token stream of the registry-lookup lexer, with its diagnostics. -/
def tokenizeReg (s : String) : List Tok × List Char :=
  lexRun lexStepReg (s.data.length + 1) s.data

/-- Full token stream of the alternation lexer of rabbit_parser.py, with
its diagnostics. -/
def tokenizeAlt (s : String) : List Tok × List Char :=
  lexRun lexStepAlt (s.data.length + 1) s.data

/-!
The Lark grammar (identical in rabbit_parser.py and in the copy inside
cli.py) and the RabbitTransformer actions.  The transformer turns every
production into a tagged tuple; the tags are the constructor names below.
-/

/-- Expression values of the RabbitTransformer: the tuples
('number', v), ('builtin', name), ('var', name), ('add' | 'sub' | 'mul' |
'div' | 'pow', l, r), ('builtin_call', name, args), ('func_call', name,
args). -/
inductive RExpr where
  | number (v : ℚ)
  | builtin (name : String)
  | var (name : String)
  | add (l r : RExpr)
  | sub (l r : RExpr)
  | mul (l r : RExpr)
  | div (l r : RExpr)
  | pow (l r : RExpr)
  | builtinCall (name : String) (args : List RExpr)
  | funcCall (name : String) (args : List RExpr)

/-- Statement values: ('assign', name, e) from assign_var,
('assign_builtin', name, e), a bare expression statement, and
('return', e) from return_expr. -/
inductive RStmt where
  | assignVar (name : String) (e : RExpr)
  | assignBuiltin (name : String) (e : RExpr)
  | exprStatement (e : RExpr)
  | returnExpr (e : RExpr)

/-!
A deterministic single-lookahead realization of the grammar

  ?expr: expr PLUS term -> add | expr MINUS term -> sub | term
  ?term: term TIMES factor -> mul | term DIVIDE factor -> div
       | term POWER factor -> pow | factor
  ?factor: NUMBER -> number | BUILTIN -> builtin | ID -> var
         | call_expr | LPAREN expr RPAREN
  call_expr: BUILTIN LPAREN args? RPAREN -> builtin_call
           | ID LPAREN args? RPAREN -> func_call
  args: expr (COMMA expr)*

The left-recursive expr and term rules become an initial parse followed by
a left-associative loop over the operators of that tier; a bare BUILTIN or
ID becomes a call exactly when the immediately following token is LPAREN.
Fuel decreases on every call; since every cycle of the grammar consumes at
least one token, fuel linear in the token count suffices.
-/

mutual

def parseExpr : Nat → List Tok → Option (RExpr × List Tok)
  | 0, _ => none
  | f + 1, ts =>
    match parseTerm f ts with
    | some (a, r) => parseExprLoop f a r
    | none => none

def parseExprLoop : Nat → RExpr → List Tok → Option (RExpr × List Tok)
  | 0, _, _ => none
  | _ + 1, a, [] => some (a, [])
  | f + 1, a, t :: ts =>
    match t with
    | .PLUS =>
      match parseTerm f ts with
      | some (b, r) => parseExprLoop f (.add a b) r
      | none => none
    | .MINUS =>
      match parseTerm f ts with
      | some (b, r) => parseExprLoop f (.sub a b) r
      | none => none
    | _ => some (a, t :: ts)

def parseTerm : Nat → List Tok → Option (RExpr × List Tok)
  | 0, _ => none
  | f + 1, ts =>
    match parseFactor f ts with
    | some (a, r) => parseTermLoop f a r
    | none => none

def parseTermLoop : Nat → RExpr → List Tok → Option (RExpr × List Tok)
  | 0, _, _ => none
  | _ + 1, a, [] => some (a, [])
  | f + 1, a, t :: ts =>
    match t with
    | .TIMES =>
      match parseFactor f ts with
      | some (b, r) => parseTermLoop f (.mul a b) r
      | none => none
    | .DIVIDE =>
      match parseFactor f ts with
      | some (b, r) => parseTermLoop f (.div a b) r
      | none => none
    | .POWER _ =>
      match parseFactor f ts with
      | some (b, r) => parseTermLoop f (.pow a b) r
      | none => none
    | _ => some (a, t :: ts)

def parseFactor : Nat → List Tok → Option (RExpr × List Tok)
  | 0, _ => none
  | _ + 1, [] => none
  | f + 1, t :: ts =>
    match t, ts with
    | .NUMBER v, _ => some (.number v, ts)
    | .BUILTIN n, .LPAREN :: .RPAREN :: r => some (.builtinCall n [], r)
    | .BUILTIN n, .LPAREN :: ts₂ =>
      (match parseArgs f ts₂ with
       | some (as, .RPAREN :: r) => some (.builtinCall n as, r)
       | _ => none)
    | .BUILTIN n, _ => some (.builtin n, ts)
    | .ID n, .LPAREN :: .RPAREN :: r => some (.funcCall n [], r)
    | .ID n, .LPAREN :: ts₂ =>
      (match parseArgs f ts₂ with
       | some (as, .RPAREN :: r) => some (.funcCall n as, r)
       | _ => none)
    | .ID n, _ => some (.var n, ts)
    | .LPAREN, _ =>
      (match parseExpr f ts with
       | some (e, .RPAREN :: r) => some (e, r)
       | _ => none)
    | _, _ => none

def parseArgs : Nat → List Tok → Option (List RExpr × List Tok)
  | 0, _ => none
  | f + 1, ts =>
    match parseExpr f ts with
    | some (e, r) => parseArgsLoop f [e] r
    | none => none

def parseArgsLoop : Nat → List RExpr → List Tok → Option (List RExpr × List Tok)
  | 0, _, _ => none
  | _ + 1, acc, [] => some (acc, [])
  | f + 1, acc, t :: ts =>
    match t with
    | .COMMA =>
      match parseExpr f ts with
      | some (e, r) => parseArgsLoop f (acc ++ [e]) r
      | none => none
    | _ => some (acc, t :: ts)

end

/-- One statement:
  assignment: ID ASSIGN expr -> assign_var | BUILTIN ASSIGN expr -> assign_builtin
  return_statement: "return" expr -> return_expr
  expr_statement: expr
An ID immediately followed by ASSIGN starts an assignment; the "return"
keyword has no dedicated lexeme kind in the PLY lexers, so it reaches the
grammar as the ID spelled return. -/
def parseStatement (f : Nat) (ts : List Tok) : Option (RStmt × List Tok) :=
  match ts with
  | .ID n :: .ASSIGN :: rest =>
    (match parseExpr f rest with
     | some (e, r) => some (.assignVar n e, r)
     | none => none)
  | .BUILTIN n :: .ASSIGN :: rest =>
    (match parseExpr f rest with
     | some (e, r) => some (.assignBuiltin n e, r)
     | none => none)
  | .ID n :: rest =>
    if n = "return" then
      match parseExpr f rest with
      | some (e, r) => some (.returnExpr e, r)
      | none => none
    else
      match parseExpr f ts with
      | some (e, r) => some (.exprStatement e, r)
      | none => none
  | _ =>
    (match parseExpr f ts with
     | some (e, r) => some (.exprStatement e, r)
     | none => none)

/-- program: (statement SEMICOLON?)* — statements with an optional
semicolon after each; the whole token stream must be consumed. -/
def parseProgram : Nat → List Tok → Option (List RStmt)
  | 0, _ => none
  | _ + 1, [] => some []
  | f + 1, ts =>
    match parseStatement f ts with
    | some (s, .SEMICOLON :: r) =>
      (match parseProgram f r with
       | some ss => some (s :: ss)
       | none => none)
    | some (s, r) =>
      (match parseProgram f r with
       | some ss => some (s :: ss)
       | none => none)
    | none => none

/-- The composed pipeline of rabbit_parser.py as specified: the PLY token
stream fed to the grammar.  (The parse function in the source hands the
raw text to Lark instead and discards the PLY tokens, but the Lark
grammar's terminals are exactly the PLY token kinds; the specification
fixes this composition as the contract.)  Illegal characters are skipped
by t_error, so they do not reach the grammar. -/
def parseSource (s : String) : Option (List RStmt) :=
  let ts := (tokenizeAlt s).1
  parseProgram (4 * ts.length + 8) ts

/-!
The minimal dialect of cli.py: AST classes String, Number, Call, Var,
Assign, Add, and the tree-walking evaluator eval_expr over the one mutable
environment, with print and input as the only callables.
-/

/-- The AST node classes of cli.py. -/
inductive CNode where
  | string (s : String)
  | number (n : ℚ)
  | call (name : String) (args : List CNode)
  | var (name : String)
  | assign (name : String) (val : CNode)
  | add (l r : CNode)

/-- Runtime values: Python floats (modelled as exact rationals), strings,
and None (the result of print calls and of Assign, which return nothing). -/
inductive Value where
  | vnum (n : ℚ)
  | vstr (s : String)
  | vnone
deriving DecidableEq

/-- Evaluation failures.  unboundName models the KeyError of env[name]
(the spec's UnboundNameError), unknownCallable the raise NameError(name)
(the spec's UnknownCallableError), eofError the EOFError of input() at an
exhausted input stream, typeError the TypeError of input(*args) with more
than one argument.  outOfFuel is an artifact of the explicit fuel and is
never produced when the fuel exceeds the node depth. -/
inductive EvalErr where
  | unboundName (n : String)
  | unknownCallable (n : String)
  | eofError
  | typeError
  | outOfFuel
deriving DecidableEq

/-- The evaluator's mutable surroundings: the global env dict, the lines
written by print (and prompts written by input), and the lines the input
collaborator still offers. -/
structure RunState where
  env : List (String × Value)
  out : List String
  inp : List String
deriving DecidableEq

/-- Lookup in the environment (dict access env[name]). -/
def lookupVar : List (String × Value) → String → Option Value
  | [], _ => none
  | (k, v) :: rest, n => if k = n then some v else lookupVar rest n

/-- Update of the environment (dict assignment env[name] = v): replaces
the existing binding or appends a new one. -/
def setVar : List (String × Value) → String → Value → List (String × Value)
  | [], n, v => [(n, v)]
  | (k, w) :: rest, n, v =>
    if k = n then (k, v) :: rest else (k, w) :: setVar rest n v

/-- Python str() of an evaluator value.  str of a string is itself, str of
None is "None"; str of a float is modelled exactly on integral values as
the integer text followed by ".0" (every float a claim evaluates is
integral); a non-integral value is rendered as an exact fraction, standing
in for Python's shortest-decimal rendering. -/
def pyFloatStr (q : ℚ) : String :=
  if q.den = 1 then toString q.num ++ ".0"
  else toString q.num ++ "/" ++ toString q.den

/-- isinstance(v, (int, float)) on the Value union: whether a runtime
value is numeric. -/
def Value.isNum : Value → Bool
  | .vnum _ => true
  | _ => false

/-- Python str() on the Value union. -/
def pyStr : Value → String
  | .vnum n => pyFloatStr n
  | .vstr s => s
  | .vnone => "None"

/-- print(*args): the arguments, space-joined (sep=" "). -/
def printJoin (vs : List Value) : String :=
  String.intercalate " " (vs.map pyStr)

mutual

/-- eval_expr of cli.py, with explicit state threading and explicit fuel.
String and Number evaluate to themselves; Var is env[name] (KeyError when
absent); Call first evaluates all arguments left to right, then
dispatches on the name — print writes the joined line and returns None,
input optionally writes its prompt, consumes one line and returns it, any
other name raises; Assign evaluates the value and then writes the
binding, returning None; Add returns the numeric sum when both operands
are numeric and otherwise the concatenation of their str()s. -/
def evalExpr : Nat → CNode → RunState → RunState × Except EvalErr Value
  | 0, _, st => (st, .error .outOfFuel)
  | _ + 1, .string s, st => (st, .ok (.vstr s))
  | _ + 1, .number n, st => (st, .ok (.vnum n))
  | _ + 1, .var n, st =>
    (match lookupVar st.env n with
     | some v => (st, .ok v)
     | none => (st, .error (.unboundName n)))
  | f + 1, .call n args, st =>
    (match evalArgs f args st with
     | (st₁, .error e) => (st₁, .error e)
     | (st₁, .ok vs) =>
       if n = "print" then
         (⟨st₁.env, st₁.out ++ [printJoin vs], st₁.inp⟩, .ok .vnone)
       else if n = "input" then
         match vs with
         | [] =>
           (match st₁.inp with
            | [] => (st₁, .error .eofError)
            | l :: ls => (⟨st₁.env, st₁.out, ls⟩, .ok (.vstr l)))
         | [p] =>
           (match st₁.inp with
            | [] => (⟨st₁.env, st₁.out ++ [pyStr p], st₁.inp⟩, .error .eofError)
            | l :: ls => (⟨st₁.env, st₁.out ++ [pyStr p], ls⟩, .ok (.vstr l)))
         | _ => (st₁, .error .typeError)
       else (st₁, .error (.unknownCallable n)))
  | f + 1, .assign n val, st =>
    (match evalExpr f val st with
     | (st₁, .error e) => (st₁, .error e)
     | (st₁, .ok v) => (⟨setVar st₁.env n v, st₁.out, st₁.inp⟩, .ok .vnone))
  | f + 1, .add l r, st =>
    (match evalExpr f l st with
     | (st₁, .error e) => (st₁, .error e)
     | (st₁, .ok lv) =>
       match evalExpr f r st₁ with
       | (st₂, .error e) => (st₂, .error e)
       | (st₂, .ok rv) =>
         match lv, rv with
         | .vnum x, .vnum y => (st₂, .ok (.vnum (x + y)))
         | _, _ => (st₂, .ok (.vstr (pyStr lv ++ pyStr rv))))

/-- The left-to-right evaluation of a Call's argument list
([eval_expr(a) for a in node.args]); the first failure propagates. -/
def evalArgs : Nat → List CNode → RunState → RunState × Except EvalErr (List Value)
  | 0, _, st => (st, .error .outOfFuel)
  | _ + 1, [], st => (st, .ok [])
  | f + 1, a :: as, st =>
    (match evalExpr f a st with
     | (st₁, .error e) => (st₁, .error e)
     | (st₁, .ok v) =>
       match evalArgs f as st₁ with
       | (st₂, .error e) => (st₂, .error e)
       | (st₂, .ok vs) => (st₂, .ok (v :: vs)))

end

/-- The driver loop of cli.py: each statement is evaluated in order for
its side effects only; an uncaught failure aborts the run. -/
def evalProgram : Nat → List CNode → RunState → RunState × Except EvalErr Unit
  | 0, _, st => (st, .error .outOfFuel)
  | _ + 1, [], st => (st, .ok ())
  | f + 1, s :: rest, st =>
    (match evalExpr f s st with
     | (st₁, .error e) => (st₁, .error e)
     | (st₁, .ok _) => evalProgram f rest st₁)

mutual

/-- Syntactic absence of Assign nodes anywhere in an expression: the shape
of every value expression the cli.py grammar can put on the right of an
assignment (assign is a statement there, not an expression). -/
def assignFree : CNode → Bool
  | .string _ => true
  | .number _ => true
  | .var _ => true
  | .call _ args => assignFreeList args
  | .assign _ _ => false
  | .add l r => assignFree l && assignFree r

/-- assignFree on every element of an argument list. -/
def assignFreeList : List CNode → Bool
  | [] => true
  | a :: as => assignFree a && assignFreeList as

end

/-!
The STRING terminal of the cli.py grammar and the ToAST.string action.
-/

/-- Full match of the STRING terminal "\"" (/[^"\\]/ | "\\" /./)* "\"":
given the text after the opening quote, returns the body when the text is
the body followed by the closing quote.  A bare quote can occur only as
the terminator, a backslash consumes the next character (which /./ forbids
to be a newline). -/
def stringLitBody : List Char → Option (List Char)
  | [] => none
  | ['"'] => some []
  | '"' :: _ :: _ => none
  | '\\' :: c :: rest =>
    if c = '\n' then none
    else
      match stringLitBody rest with
      | some b => some ('\\' :: c :: b)
      | none => none
  | ['\\'] => none
  | c :: rest =>
    match stringLitBody rest with
    | some b => some (c :: b)
    | none => none

/-- Whether a character list is exactly one STRING lexeme. -/
def isStringLit : List Char → Bool
  | '"' :: rest => (stringLitBody rest).isSome
  | _ => false

/-- ToAST.string of cli.py: String(s[0][1:-1]) — the first and last
character of the matched lexeme are stripped, and nothing else is done
(no unescaping). -/
def stringAction (tok : String) : CNode :=
  .string (String.mk (tok.data.drop 1).dropLast)

/-!
Vocabulary for stating the classification claim: an identifier-shaped run
is a nonempty dot-separated list of segments, each a start character
followed by identifier characters; a run is maximal in its context when
the characters that follow can extend neither the last segment nor the
dotted chain.
-/

/-- A well-formed identifier segment: [A-Za-z_][A-Za-z0-9_]*. -/
def SegWF (p : Char × List Char) : Bool :=
  isIdentStartChar p.1 && p.2.all isIdentChar

/-- The source text of a dotted identifier run, segments joined by dots. -/
def renderRun : List (Char × List Char) → List Char
  | [] => []
  | [p] => p.1 :: p.2
  | p :: q :: ss => p.1 :: p.2 ++ '.' :: renderRun (q :: ss)

/-- The text after a maximal identifier run: it must not start with an
identifier character, nor with a dot immediately followed by an identifier
start character (either would extend the greedy match). -/
def runBoundary : List Char → Bool
  | [] => true
  | c :: cs =>
    if isIdentChar c then false
    else if c = '.' then
      match cs with
      | [] => true
      | d :: _ => !(isIdentStartChar d)
    else true

/-- A token list that a factor production matches completely, whatever
follows, as long as what follows cannot turn a trailing bare identifier
into a call (the grammar's one-token lookahead): parseFactor consumes
exactly these tokens, at any fuel of at least f₀. -/
def FactorToks (f₀ : Nat) (ta : List Tok) (a : RExpr) : Prop :=
  ∀ f rest, f₀ ≤ f → rest.head? ≠ some Tok.LPAREN →
    parseFactor f (ta ++ rest) = some (a, rest)

/-!
Lemmas about the greedy dotted-identifier scan.
-/

theorem segWF_start {p : Char × List Char} (h : SegWF p = true) :
    isIdentStartChar p.1 = true := by
  simp only [SegWF, Bool.and_eq_true] at h
  exact h.1

theorem segWF_tail {p : Char × List Char} (h : SegWF p = true) :
    p.2.all isIdentChar = true := by
  simp only [SegWF, Bool.and_eq_true] at h
  exact h.2

theorem identStart_isIdentChar {c : Char} (h : isIdentStartChar c = true) :
    isIdentChar c = true := by
  simp only [isIdentStartChar, Bool.or_eq_true] at h
  simp only [isIdentChar, Char.isAlphanum, Bool.or_eq_true]
  rcases h with h | h
  · exact Or.inl (Or.inl h)
  · exact Or.inr h

theorem scanIdent_cons (c : Char) (cs : List Char) :
    scanIdent (c :: cs)
      = if isIdentChar c = true then (c :: (scanIdent cs).1, (scanIdent cs).2)
        else if c = '.' then
          (match cs with
           | d :: ds =>
             if isIdentStartChar d = true then (c :: d :: (scanIdent ds).1, (scanIdent ds).2)
             else ([], c :: cs)
           | [] => ([], c :: cs))
        else ([], c :: cs) := by
  rw [scanIdent.eq_def]

theorem runBoundary_cons (c : Char) (cs : List Char) :
    runBoundary (c :: cs)
      = if isIdentChar c = true then false
        else if c = '.' then
          (match cs with
           | [] => true
           | d :: _ => !(isIdentStartChar d))
        else true := rfl

theorem scanIdent_append (tl k : List Char) (h : tl.all isIdentChar = true) :
    scanIdent (tl ++ k) = (tl ++ (scanIdent k).1, (scanIdent k).2) := by
  induction tl with
  | nil => simp
  | cons c cs ih =>
    rw [List.all_cons, Bool.and_eq_true] at h
    rw [List.cons_append, scanIdent_cons, if_pos h.1, ih h.2]
    rfl

theorem scanIdent_boundary (rest : List Char) (h : runBoundary rest = true) :
    scanIdent rest = ([], rest) := by
  cases rest with
  | nil => rfl
  | cons c cs =>
    rw [runBoundary_cons] at h
    by_cases hc : isIdentChar c = true
    · rw [if_pos hc] at h; exact absurd h (by simp)
    · rw [if_neg hc] at h
      rw [scanIdent_cons, if_neg hc]
      by_cases hd : c = '.'
      · rw [if_pos hd] at h
        rw [if_pos hd]
        cases cs with
        | nil => rfl
        | cons d ds =>
          have hds : isIdentStartChar d = false := by simpa using h
          simp [hds]
      · rw [if_neg hd] at h
        rw [if_neg hd]

theorem scanIdent_dot (d : Char) (ds : List Char) (h : isIdentStartChar d = true) :
    scanIdent ('.' :: d :: ds)
      = ('.' :: (scanIdent (d :: ds)).1, (scanIdent (d :: ds)).2) := by
  have hd := identStart_isIdentChar h
  conv_rhs => rw [scanIdent_cons, if_pos hd]
  rw [scanIdent_cons]
  rw [if_neg (by decide : ¬((isIdentChar '.') = true))]
  rw [if_pos (rfl : ('.' : Char) = '.')]
  dsimp only
  rw [if_pos h]

theorem renderRun_cons (q : Char × List Char) (ss : List (Char × List Char)) :
    ∃ t, renderRun (q :: ss) = q.1 :: t := by
  cases ss with
  | nil => exact ⟨q.2, rfl⟩
  | cons s ss' => exact ⟨q.2 ++ '.' :: renderRun (s :: ss'), rfl⟩

/-- The greedy dotted scan consumes a well-formed run exactly, whenever
the following text cannot extend it. -/
theorem scanIdent_renderRun :
    ∀ segs rest, segs ≠ [] → (∀ p ∈ segs, SegWF p = true) → runBoundary rest = true →
      scanIdent (renderRun segs ++ rest) = (renderRun segs, rest) := by
  intro segs
  induction segs with
  | nil => intro rest h; exact absurd rfl h
  | cons p ss ih =>
    intro rest _ hwf hb
    have hp := hwf p (List.mem_cons_self p ss)
    cases ss with
    | nil =>
      show scanIdent ((p.1 :: p.2) ++ rest) = (p.1 :: p.2, rest)
      rw [List.cons_append, scanIdent_cons, if_pos (identStart_isIdentChar (segWF_start hp))]
      rw [scanIdent_append p.2 rest (segWF_tail hp), scanIdent_boundary rest hb]
      simp
    | cons q ss' =>
      have hq := hwf q (by simp)
      obtain ⟨t, ht⟩ := renderRun_cons q ss'
      have hrec := ih rest (by simp) (fun x hx => hwf x (List.mem_cons_of_mem p hx)) hb
      show scanIdent ((p.1 :: p.2 ++ '.' :: renderRun (q :: ss')) ++ rest)
          = (p.1 :: p.2 ++ '.' :: renderRun (q :: ss'), rest)
      rw [ht] at hrec ⊢
      simp only [List.cons_append, List.append_assoc] at hrec ⊢
      rw [scanIdent_cons, if_pos (identStart_isIdentChar (segWF_start hp))]
      rw [scanIdent_append p.2 _ (segWF_tail hp)]
      rw [scanIdent_dot q.1 (t ++ rest) (segWF_start hq)]
      rw [hrec]

theorem identStart_not_ws {c : Char} (h : isIdentStartChar c = true) :
    isWsChar c = false := by
  by_contra hw
  have hw' : isWsChar c = true := by simpa using hw
  simp only [isWsChar, Bool.or_eq_true, decide_eq_true_eq] at hw'
  rcases hw' with (h1 | h1) | h1 <;> subst h1 <;> exact absurd h (by decide)

theorem identStart_ne_semi {c : Char} (h : isIdentStartChar c = true) : ¬(c = ';') := by
  intro h1
  subst h1
  exact absurd h (by decide)

/-- Claim C1 is stated over both cited classifiers; the alternation
classifier of rabbit_parser.py falsifies it: the unmatched dotted run
foo.bar is split at its dot into the two plain lexemes foo and bar (with
the dot reported as an illegal character), not kept as one lexeme. -/
theorem claim1_counterexample :
    tokenizeAlt "foo.bar" = ([Tok.ID ("foo"), Tok.ID ("bar")], ['.'])
    ∧ [Tok.ID ("foo"), Tok.ID ("bar")] ≠ [Tok.ID ("foo.bar")]
    ∧ [Tok.ID ("foo"), Tok.ID ("bar")] ≠ [Tok.BUILTIN ("foo.bar")] := by
  refine ⟨by with_unfolding_all rfl, by decide, by decide⟩

/-- Claim C1 (amended): for the registry-lookup classifier (the
RabbitLexer copy in cli.py), every maximal identifier-shaped run —
dotted extensions included — yields exactly one lexeme, a
BUILTIN_IDENTIFIER lexeme exactly when the full dotted text is in the
built-in registry and a single plain IDENTIFIER lexeme otherwise; in
particular json.parse lexes to one BUILTIN lexeme under both classifiers,
while the alternation classifier of rabbit_parser.py splits an unmatched
dotted run such as foo.bar at its dots. -/
theorem claim1_dotted_classification :
    (∀ segs rest, segs ≠ [] → (∀ p ∈ segs, SegWF p = true) → runBoundary rest = true →
      lexStepReg (renderRun segs ++ rest)
        = (.tok (if builtinIdentifiers.contains (String.mk (renderRun segs))
                 then Tok.BUILTIN (String.mk (renderRun segs))
                 else Tok.ID (String.mk (renderRun segs))), rest))
    ∧ tokenizeReg "json.parse" = ([Tok.BUILTIN ("json.parse")], [])
    ∧ tokenizeAlt "json.parse" = ([Tok.BUILTIN ("json.parse")], [])
    ∧ tokenizeReg "foo.bar" = ([Tok.ID ("foo.bar")], [])
    ∧ tokenizeAlt "foo.bar" = ([Tok.ID ("foo"), Tok.ID ("bar")], ['.']) := by
  refine ⟨?_, by with_unfolding_all rfl, by with_unfolding_all rfl,
    by with_unfolding_all rfl, by with_unfolding_all rfl⟩
  intro segs rest hne hwf hb
  have hscan := scanIdent_renderRun segs rest hne hwf hb
  obtain ⟨p, ss, rfl⟩ : ∃ p ss, segs = p :: ss := by
    cases segs with
    | nil => exact absurd rfl hne
    | cons p ss => exact ⟨p, ss, rfl⟩
  have hp := hwf p (List.mem_cons_self p ss)
  obtain ⟨t, ht⟩ := renderRun_cons p ss
  rw [ht] at hscan ⊢
  rw [List.cons_append] at hscan ⊢
  rw [lexStepReg.eq_def]
  rw [List.dropWhile_cons]
  rw [if_neg (by simp [identStart_not_ws (segWF_start hp)])]
  dsimp only
  rw [if_neg (identStart_ne_semi (segWF_start hp)), if_pos (segWF_start hp), hscan]

/-- Witness: the amended C1 theorem applied to the concrete dotted run
json.parse followed by nothing. -/
theorem claim1_dotted_classification_witness :
    lexStepReg (renderRun [('j', ['s', 'o', 'n']), ('p', ['a', 'r', 's', 'e'])] ++ [])
      = (.tok (if builtinIdentifiers.contains
                 (String.mk (renderRun [('j', ['s', 'o', 'n']), ('p', ['a', 'r', 's', 'e'])]))
               then Tok.BUILTIN (String.mk (renderRun [('j', ['s', 'o', 'n']), ('p', ['a', 'r', 's', 'e'])]))
               else Tok.ID (String.mk (renderRun [('j', ['s', 'o', 'n']), ('p', ['a', 'r', 's', 'e'])]))), []) :=
  claim1_dotted_classification.1 [('j', ['s', 'o', 'n']), ('p', ['a', 'r', 's', 'e'])] []
    (by decide) (by decide) (by decide)

/-- Claim C3: the superscript glyphs are accepted as spellings of the
POWER operator itself (first half of the claim, which holds), so the
token stream of r² has exactly the token kinds of r^ — a dangling
operator.  Parsing therefore fails on r², while r^2 parses to
pow(var(r), 2): the claimed equivalence of the two parse shapes fails on
the code.  The source's own demonstration line "area = pi * r²" fails to
parse for the same reason, so the specified equivalence is taken as the
intent and the lexer rule as the slip. -/
theorem claim3_superscript_power :
    (tokenizeAlt "²").1 = [Tok.POWER '²']
    ∧ (tokenizeAlt "³").1 = [Tok.POWER '³']
    ∧ (tokenizeAlt "^").1 = [Tok.POWER '^']
    ∧ (tokenizeAlt "r²").1.map Tok.kind = (tokenizeAlt "r^").1.map Tok.kind
    ∧ parseSource "r^2" = some [.exprStatement (.pow (.var ("r")) (.number 2))]
    ∧ parseSource "r²" = none
    ∧ parseSource "area = pi * r²" = none := by
  refine ⟨by with_unfolding_all rfl, by with_unfolding_all rfl, by with_unfolding_all rfl,
    by with_unfolding_all rfl, by with_unfolding_all rfl, by with_unfolding_all rfl,
    by with_unfolding_all rfl⟩

/-- Claim C4: multiplication binds more tightly than addition — the
source "2 + 3 * 4" parses (through the expr and term tiers) to the shape
add(2, mul(3, 4)), wrapped as the single expression statement of the
program, and not to mul(add(2, 3), 4). -/
theorem claim4_mul_over_add :
    parseSource "2 + 3 * 4"
      = some [.exprStatement (.add (.number 2) (.mul (.number 3) (.number 4)))]
    ∧ parseSource "2 + 3 * 4"
      ≠ some [.exprStatement (.mul (.add (.number 2) (.number 3)) (.number 4))] := by
  have h1 : parseSource "2 + 3 * 4"
      = some [.exprStatement (.add (.number 2) (.mul (.number 3) (.number 4)))] := by
    with_unfolding_all rfl
  refine ⟨h1, ?_⟩
  rw [h1]
  intro h
  injection h with h2
  injection h2 with h3 h4
  injection h3 with h5
  injection h5

/-- Claim C6: addition and subtraction are left-associative at the lowest
tier — "10 - 2 - 3" parses to sub(sub(10, 2), 3), not sub(10, sub(2, 3)). -/
theorem claim6_sub_left_assoc :
    parseSource "10 - 2 - 3"
      = some [.exprStatement (.sub (.sub (.number 10) (.number 2)) (.number 3))]
    ∧ parseSource "10 - 2 - 3"
      ≠ some [.exprStatement (.sub (.number 10) (.sub (.number 2) (.number 3)))] := by
  have h1 : parseSource "10 - 2 - 3"
      = some [.exprStatement (.sub (.sub (.number 10) (.number 2)) (.number 3))] := by
    with_unfolding_all rfl
  refine ⟨h1, ?_⟩
  rw [h1]
  intro h
  injection h with h2
  injection h2 with h3 h4
  injection h3 with h5
  injection h5 with h6 h7
  injection h6

/-- Claim C8: parsing is deterministic — the pipeline is a pure function
of the source text (each invocation of parse builds a fresh lexer, parser
and transformer from the text alone), so two parses of identical text
yield structurally identical results. -/
theorem claim8_parse_deterministic (s : String) (a₁ a₂ : List RStmt)
    (h₁ : parseSource s = some a₁) (h₂ : parseSource s = some a₂) : a₁ = a₂ := by
  rw [h₁] at h₂
  exact Option.some.inj h₂

/-- Witness: determinism applied to the parses of the source "x = 1". -/
theorem claim8_parse_deterministic_witness :
    parseSource "x = 1" = some [.assignVar ("x") (.number 1)]
    ∧ ([RStmt.assignVar ("x") (RExpr.number 1)] : List RStmt)
        = [RStmt.assignVar ("x") (RExpr.number 1)] :=
  ⟨by with_unfolding_all rfl,
   claim8_parse_deterministic "x = 1" _ _ (by with_unfolding_all rfl) (by with_unfolding_all rfl)⟩

/-- A single NUMBER token is a factor, whatever follows. -/
theorem factorToks_number (v : ℚ) : FactorToks 1 [Tok.NUMBER v] (.number v) := by
  intro f rest hf _
  obtain ⟨f', rfl⟩ : ∃ f', f = f' + 1 := ⟨f - 1, by omega⟩
  show parseFactor (f' + 1) (Tok.NUMBER v :: rest) = some (.number v, rest)
  rw [parseFactor.eq_def]

/-- Claim C5: exponentiation shares one left-associative tier with
multiplication and division.  For all factors a, b, c — given by the
token lists the factor production consumes for them — the token stream of
a ^ b * c parses as mul(pow(a, b), c) and that of a * b ^ c parses as
pow(mul(a, b), c), at any sufficient fuel; concretely, the sources
"2 ^ 3 * 4" and "2 * 3 ^ 4" parse to those shapes. -/
theorem claim5_pow_same_tier (ta tb tc : List Tok) (fa fb fc : Nat) (a b c : RExpr)
    (ha : FactorToks fa ta a) (hb : FactorToks fb tb b) (hc : FactorToks fc tc c) :
    (∀ g f, fa + fb + fc + 5 ≤ f →
        parseExpr f (ta ++ (Tok.POWER g :: (tb ++ (Tok.TIMES :: tc))))
          = some (.mul (.pow a b) c, []))
    ∧ (∀ g f, fa + fb + fc + 5 ≤ f →
        parseExpr f (ta ++ (Tok.TIMES :: (tb ++ (Tok.POWER g :: tc))))
          = some (.pow (.mul a b) c, []))
    ∧ parseSource "2 ^ 3 * 4"
        = some [.exprStatement (.mul (.pow (.number 2) (.number 3)) (.number 4))]
    ∧ parseSource "2 * 3 ^ 4"
        = some [.exprStatement (.pow (.mul (.number 2) (.number 3)) (.number 4))] := by
  refine ⟨?_, ?_, by with_unfolding_all rfl, by with_unfolding_all rfl⟩
  · intro g f hf
    obtain ⟨f', rfl⟩ : ∃ f', f = f' + 1 + 1 + 1 + 1 + 1 := ⟨f - 5, by omega⟩
    have hA := ha (f' + 3) (Tok.POWER g :: (tb ++ (Tok.TIMES :: tc))) (by omega) (by simp)
    have hB := hb (f' + 2) (Tok.TIMES :: tc) (by omega) (by simp)
    have hC := hc (f' + 1) [] (by omega) (by simp)
    rw [List.append_nil] at hC
    rw [parseExpr.eq_def]
    dsimp only
    rw [parseTerm.eq_def]
    dsimp only
    rw [hA]
    dsimp only
    rw [parseTermLoop.eq_def]
    dsimp only
    rw [hB]
    dsimp only
    rw [parseTermLoop.eq_def]
    dsimp only
    rw [hC]
    dsimp only
    rw [parseTermLoop.eq_def]
    dsimp only
    rw [parseExprLoop.eq_def]
  · intro g f hf
    obtain ⟨f', rfl⟩ : ∃ f', f = f' + 1 + 1 + 1 + 1 + 1 := ⟨f - 5, by omega⟩
    have hA := ha (f' + 3) (Tok.TIMES :: (tb ++ (Tok.POWER g :: tc))) (by omega) (by simp)
    have hB := hb (f' + 2) (Tok.POWER g :: tc) (by omega) (by simp)
    have hC := hc (f' + 1) [] (by omega) (by simp)
    rw [List.append_nil] at hC
    rw [parseExpr.eq_def]
    dsimp only
    rw [parseTerm.eq_def]
    dsimp only
    rw [hA]
    dsimp only
    rw [parseTermLoop.eq_def]
    dsimp only
    rw [hB]
    dsimp only
    rw [parseTermLoop.eq_def]
    dsimp only
    rw [hC]
    dsimp only
    rw [parseTermLoop.eq_def]
    dsimp only
    rw [parseExprLoop.eq_def]

/-- Witness: the tier theorem applied to the single-token factors 2, 3, 4
with the ^ glyph, at fuel 8. -/
theorem claim5_pow_same_tier_witness :
    parseExpr 8 ([Tok.NUMBER 2] ++ (Tok.POWER '^' :: ([Tok.NUMBER 3] ++ (Tok.TIMES :: [Tok.NUMBER 4]))))
      = some (.mul (.pow (.number 2) (.number 3)) (.number 4), [])
    ∧ parseExpr 8 ([Tok.NUMBER 2] ++ (Tok.TIMES :: ([Tok.NUMBER 3] ++ (Tok.POWER '^' :: [Tok.NUMBER 4]))))
      = some (.pow (.mul (.number 2) (.number 3)) (.number 4), []) := by
  have h := claim5_pow_same_tier [Tok.NUMBER 2] [Tok.NUMBER 3] [Tok.NUMBER 4] 1 1 1
    (.number 2) (.number 3) (.number 4)
    (factorToks_number 2) (factorToks_number 3) (factorToks_number 4)
  exact ⟨h.1 '^' 8 (by omega), h.2.1 '^' 8 (by omega)⟩

/-!
Lemmas about the evaluator's environment.
-/

theorem lookupVar_setVar_same (env : List (String × Value)) (n : String) (v : Value) :
    lookupVar (setVar env n v) n = some v := by
  induction env with
  | nil =>
    show lookupVar [(n, v)] n = some v
    rw [lookupVar.eq_def]
    dsimp only
    rw [if_pos rfl]
  | cons p rest ih =>
    obtain ⟨pk, pv⟩ := p
    rw [setVar.eq_def]
    dsimp only
    by_cases hp : pk = n
    · rw [if_pos hp, lookupVar.eq_def]
      dsimp only
      rw [if_pos hp]
    · rw [if_neg hp, lookupVar.eq_def]
      dsimp only
      rw [if_neg hp]
      exact ih

theorem lookupVar_setVar_other (env : List (String × Value)) (n : String) (v : Value)
    (k : String) (hk : ¬(k = n)) :
    lookupVar (setVar env n v) k = lookupVar env k := by
  have hnk : ¬(n = k) := fun h => hk h.symm
  induction env with
  | nil =>
    show lookupVar [(n, v)] k = none
    rw [lookupVar.eq_def]
    dsimp only
    rw [if_neg hnk]
    rfl
  | cons p rest ih =>
    obtain ⟨pk, pv⟩ := p
    rw [setVar.eq_def]
    dsimp only
    by_cases hp : pk = n
    · rw [if_pos hp]
      rw [lookupVar.eq_def]
      dsimp only
      conv_rhs => rw [lookupVar.eq_def]
      dsimp only
      rw [if_neg (by rw [hp]; exact hnk), if_neg (by rw [hp]; exact hnk)]
    · rw [if_neg hp]
      rw [lookupVar.eq_def]
      dsimp only
      conv_rhs => rw [lookupVar.eq_def]
      dsimp only
      by_cases hq : pk = k
      · rw [if_pos hq, if_pos hq]
      · rw [if_neg hq, if_neg hq]
        exact ih

/-- Evaluating an expression with no Assign node anywhere inside never
changes the environment (print and input touch only the output and input
components; a failure leaves the environment of the point of failure). -/
theorem eval_env_preserved :
    ∀ f, (∀ node st, assignFree node = true → ((evalExpr f node st).1).env = st.env)
       ∧ (∀ args st, assignFreeList args = true → ((evalArgs f args st).1).env = st.env) := by
  intro f
  induction f with
  | zero => exact ⟨fun _ st _ => rfl, fun _ st _ => rfl⟩
  | succ f ih =>
    constructor
    · intro node st h
      cases node with
      | string s => rfl
      | number n => rfl
      | var n =>
        rw [evalExpr.eq_def]
        dsimp only
        cases lookupVar st.env n <;> rfl
      | assign n val => exact absurd h (by simp [assignFree])
      | call n args =>
        have hargs : assignFreeList args = true := by
          simp only [assignFree] at h
          exact h
        rw [evalExpr.eq_def]
        dsimp only
        rcases hE : evalArgs f args st with ⟨st₁, r⟩
        have henv : st₁.env = st.env := by
          have hh := ih.2 args st hargs
          rw [hE] at hh
          exact hh
        cases r with
        | error e => exact henv
        | ok vs =>
          dsimp only
          by_cases hp : n = "print"
          · rw [if_pos hp]
            exact henv
          · rw [if_neg hp]
            by_cases hi : n = "input"
            · rw [if_pos hi]
              cases vs with
              | nil =>
                dsimp only
                cases st₁.inp <;> exact henv
              | cons p ps =>
                cases ps with
                | nil =>
                  dsimp only
                  cases st₁.inp <;> exact henv
                | cons q qs => exact henv
            · rw [if_neg hi]
              exact henv
      | add l r =>
        have hlr : assignFree l = true ∧ assignFree r = true := by
          simp only [assignFree, Bool.and_eq_true] at h
          exact h
        rw [evalExpr.eq_def]
        dsimp only
        rcases hL : evalExpr f l st with ⟨st₁, rL⟩
        have h₁ : st₁.env = st.env := by
          have hh := ih.1 l st hlr.1
          rw [hL] at hh
          exact hh
        cases rL with
        | error e => exact h₁
        | ok lv =>
          dsimp only
          rcases hR : evalExpr f r st₁ with ⟨st₂, rR⟩
          have h₂ : st₂.env = st₁.env := by
            have hh := ih.1 r st₁ hlr.2
            rw [hR] at hh
            exact hh
          cases rR with
          | error e => exact h₂.trans h₁
          | ok rv =>
            dsimp only
            cases lv <;> cases rv <;> exact h₂.trans h₁
    · intro args st h
      cases args with
      | nil => rfl
      | cons a as =>
        have hsplit : assignFree a = true ∧ assignFreeList as = true := by
          simp only [assignFreeList, Bool.and_eq_true] at h
          exact h
        rw [evalArgs.eq_def]
        dsimp only
        rcases hA : evalExpr f a st with ⟨st₁, rA⟩
        have h₁ : st₁.env = st.env := by
          have hh := ih.1 a st hsplit.1
          rw [hA] at hh
          exact hh
        cases rA with
        | error e => exact h₁
        | ok v =>
          dsimp only
          rcases hAs : evalArgs f as st₁ with ⟨st₂, rAs⟩
          have h₂ : st₂.env = st₁.env := by
            have hh := ih.2 as st₁ hsplit.2
            rw [hAs] at hh
            exact hh
          cases rAs with
          | error e => exact h₂.trans h₁
          | ok vs => exact h₂.trans h₁

/-- Claim C2 says Add(String("a"), Number(1)) yields "a1", but Number
stores float(1) and Python's str of the float 1.0 is "1.0", so the
evaluator concatenates to "a1.0". -/
theorem claim2_counterexample :
    evalExpr 2 (.add (.string ("a")) (.number 1)) ⟨[], [], []⟩
      = (⟨[], [], []⟩, .ok (.vstr ("a1.0")))
    ∧ Value.vstr ("a1.0") ≠ Value.vstr ("a1") :=
  ⟨by with_unfolding_all rfl, by decide⟩

/-- Claim C2 (amended): for every Add node, when both fully evaluated
operands are numeric the evaluator returns their numeric sum, and
otherwise the concatenation of both operands' str() representations;
Add(Number(1), Number(2)) yields the numeric 3, and
Add(String("a"), Number(1)) yields the string "a1.0" — the str() of the
float 1.0 — not "a1". -/
theorem claim2_polymorphic_add :
    (∀ f l r st st₁ st₂ x y,
       evalExpr f l st = (st₁, .ok (.vnum x)) →
       evalExpr f r st₁ = (st₂, .ok (.vnum y)) →
       evalExpr (f + 1) (.add l r) st = (st₂, .ok (.vnum (x + y))))
    ∧ (∀ f l r st st₁ st₂ v w,
       evalExpr f l st = (st₁, .ok v) →
       evalExpr f r st₁ = (st₂, .ok w) →
       (v.isNum && w.isNum) = false →
       evalExpr (f + 1) (.add l r) st = (st₂, .ok (.vstr (pyStr v ++ pyStr w))))
    ∧ evalExpr 2 (.add (.number 1) (.number 2)) ⟨[], [], []⟩
        = (⟨[], [], []⟩, .ok (.vnum 3))
    ∧ evalExpr 2 (.add (.string ("a")) (.number 1)) ⟨[], [], []⟩
        = (⟨[], [], []⟩, .ok (.vstr ("a1.0"))) := by
  refine ⟨?_, ?_, by with_unfolding_all rfl, by with_unfolding_all rfl⟩
  · intro f l r st st₁ st₂ x y h₁ h₂
    rw [evalExpr.eq_def]
    dsimp only
    rw [h₁]
    dsimp only
    rw [h₂]
  · intro f l r st st₁ st₂ v w h₁ h₂ hn
    rw [evalExpr.eq_def]
    dsimp only
    rw [h₁]
    dsimp only
    rw [h₂]
    dsimp only
    cases v with
    | vnum a =>
      cases w with
      | vnum b => exact absurd hn (by simp [Value.isNum])
      | vstr s => rfl
      | vnone => rfl
    | vstr s => cases w <;> rfl
    | vnone => cases w <;> rfl

/-- Witness: the add theorem applied at Number(1) + Number(2) and at
String("a") + Number(1) in the empty state. -/
theorem claim2_polymorphic_add_witness :
    evalExpr 2 (.add (.number 1) (.number 2)) ⟨[], [], []⟩
      = (⟨[], [], []⟩, .ok (.vnum (1 + 2)))
    ∧ evalExpr 2 (.add (.string ("a")) (.number 1)) ⟨[], [], []⟩
      = (⟨[], [], []⟩, .ok (.vstr (pyStr (.vstr ("a")) ++ pyStr (.vnum 1)))) :=
  ⟨claim2_polymorphic_add.1 1 (.number 1) (.number 2) ⟨[], [], []⟩ ⟨[], [], []⟩ ⟨[], [], []⟩ 1 2
     (by with_unfolding_all rfl) (by with_unfolding_all rfl),
   claim2_polymorphic_add.2.1 1 (.string ("a")) (.number 1) ⟨[], [], []⟩ ⟨[], [], []⟩ ⟨[], [], []⟩
     (.vstr ("a")) (.vnum 1)
     (by with_unfolding_all rfl) (by with_unfolding_all rfl) (by decide)⟩

/-- Claim C7 says a Call with an unknown name fails with
UnknownCallableError, but the evaluator evaluates all arguments first: a
failing argument makes the same Call fail with that argument's error
instead — here UnboundNameError, not UnknownCallableError. -/
theorem claim7_counterexample :
    evalExpr 3 (.call ("nope") [.var ("u")]) ⟨[], [], []⟩
      = (⟨[], [], []⟩, .error (.unboundName ("u")))
    ∧ EvalErr.unboundName ("u") ≠ EvalErr.unknownCallable ("nope") :=
  ⟨by with_unfolding_all rfl, by decide⟩

/-- Claim C7 (amended): a Call whose name is neither print nor input
always fails — with UnknownCallableError when all its arguments evaluate
(in particular Call("nope", []) does), and with the argument's own error
when an argument fails first; a Variable whose name is unbound fails with
UnboundNameError; each failure aborts the evaluation run at that
statement. -/
theorem claim7_eval_errors :
    (∀ f n args st st₁ vs, ¬(n = "print") → ¬(n = "input") →
       evalArgs f args st = (st₁, .ok vs) →
       evalExpr (f + 1) (.call n args) st = (st₁, .error (.unknownCallable n)))
    ∧ (∀ f n args st st₁ e,
       evalArgs f args st = (st₁, .error e) →
       evalExpr (f + 1) (.call n args) st = (st₁, .error e))
    ∧ (∀ f n st, lookupVar st.env n = none →
       evalExpr (f + 1) (.var n) st = (st, .error (.unboundName n)))
    ∧ (∀ f s rest st st₁ e,
       evalExpr f s st = (st₁, .error e) →
       evalProgram (f + 1) (s :: rest) st = (st₁, .error e))
    ∧ evalExpr 2 (.call ("nope") []) ⟨[], [], []⟩
        = (⟨[], [], []⟩, .error (.unknownCallable ("nope"))) := by
  refine ⟨?_, ?_, ?_, ?_, by with_unfolding_all rfl⟩
  · intro f n args st st₁ vs hp hi h
    rw [evalExpr.eq_def]
    dsimp only
    rw [h]
    dsimp only
    rw [if_neg hp, if_neg hi]
  · intro f n args st st₁ e h
    rw [evalExpr.eq_def]
    dsimp only
    rw [h]
  · intro f n st h
    rw [evalExpr.eq_def]
    dsimp only
    rw [h]
  · intro f s rest st st₁ e h
    rw [evalProgram.eq_def]
    dsimp only
    rw [h]

/-- Witness: the error theorem applied to Call("nope", []) and to the
unbound Variable u in the empty environment. -/
theorem claim7_eval_errors_witness :
    evalExpr 2 (.call ("nope") []) ⟨[], [], []⟩
      = (⟨[], [], []⟩, .error (.unknownCallable ("nope")))
    ∧ evalExpr 1 (.var ("u")) ⟨[], [], []⟩
      = (⟨[], [], []⟩, .error (.unboundName ("u"))) :=
  ⟨claim7_eval_errors.1 1 ("nope") [] ⟨[], [], []⟩ ⟨[], [], []⟩ []
     (by decide) (by decide) (by with_unfolding_all rfl),
   claim7_eval_errors.2.2.1 0 ("u") ⟨[], [], []⟩ (by with_unfolding_all rfl)⟩

/-- Claim C9 says a failing value expression leaves the Environment
unchanged, but an Assign nested inside the value expression writes its
binding before the failure: evaluating
x = (y = 1) + missing from the empty environment fails with
UnboundNameError while the environment has gained y ↦ 1.0. -/
theorem claim9_counterexample :
    evalExpr 4 (.assign ("x") (.add (.assign ("y") (.number 1)) (.var ("missing")))) ⟨[], [], []⟩
      = (⟨[(("y"), Value.vnum 1)], [], []⟩, .error (.unboundName ("missing")))
    ∧ ([(("y"), Value.vnum 1)] : List (String × Value)) ≠ [] :=
  ⟨by with_unfolding_all rfl, by decide⟩

/-- Claim C9 (amended): the target binding is written only after the
value expression has fully evaluated — on failure the Assign fails with
the value's error and the state is exactly the state the value
evaluation left (so when the value expression contains no nested Assign,
the Environment is unchanged); on success exactly the target binding is
written: it maps to the new value, and every other binding is as before. -/
theorem claim9_assign_atomicity :
    (∀ f n val st st₁ e,
       evalExpr f val st = (st₁, .error e) →
       evalExpr (f + 1) (.assign n val) st = (st₁, .error e))
    ∧ (∀ f n val st st₁ v,
       evalExpr f val st = (st₁, .ok v) →
       evalExpr (f + 1) (.assign n val) st
         = (⟨setVar st₁.env n v, st₁.out, st₁.inp⟩, .ok .vnone))
    ∧ (∀ f val st, assignFree val = true → ((evalExpr f val st).1).env = st.env)
    ∧ (∀ env n v, lookupVar (setVar env n v) n = some v)
    ∧ (∀ env n v k, ¬(k = n) → lookupVar (setVar env n v) k = lookupVar env k) := by
  refine ⟨?_, ?_, fun f val st h => (eval_env_preserved f).1 val st h,
    lookupVar_setVar_same, lookupVar_setVar_other⟩
  · intro f n val st st₁ e h
    rw [evalExpr.eq_def]
    dsimp only
    rw [h]
  · intro f n val st st₁ v h
    rw [evalExpr.eq_def]
    dsimp only
    rw [h]

/-- Witness: atomicity applied to x = 5 in the empty state, to the
assign-free value expression 1 + 2, and to the lookup facts at the
binding x ↦ 5. -/
theorem claim9_assign_atomicity_witness :
    evalExpr 2 (.assign ("x") (.number 5)) ⟨[], [], []⟩
      = (⟨setVar [] ("x") (.vnum 5), [], []⟩, .ok .vnone)
    ∧ ((evalExpr 3 (.add (.number 1) (.number 2)) ⟨[], [], []⟩).1).env = ([] : List (String × Value))
    ∧ lookupVar (setVar [] ("x") (.vnum 5)) ("x") = some (.vnum 5)
    ∧ lookupVar (setVar [] ("x") (.vnum 5)) ("k") = lookupVar [] ("k") :=
  ⟨claim9_assign_atomicity.2.1 1 ("x") (.number 5) ⟨[], [], []⟩ ⟨[], [], []⟩ (.vnum 5)
     (by with_unfolding_all rfl),
   claim9_assign_atomicity.2.2.1 3 (.add (.number 1) (.number 2)) ⟨[], [], []⟩
     (by simp [assignFree]),
   claim9_assign_atomicity.2.2.2.1 [] ("x") (.vnum 5),
   claim9_assign_atomicity.2.2.2.2 [] ("x") (.vnum 5) ("k") (by decide)⟩

/-- Claim C10: a StringLiteral is built from a STRING lexeme by stripping
exactly the surrounding pair of double quotes; the body — including every
backslash — is kept verbatim, with no unescaping.  Concretely, the source
literal "a\"b" keeps its backslash. -/
theorem claim10_no_unescaping (body : List Char)
    (h : stringLitBody (body ++ ['"']) = some body) :
    isStringLit ('"' :: body ++ ['"']) = true
    ∧ stringAction (String.mk ('"' :: body ++ ['"'])) = .string (String.mk body)
    ∧ stringAction (String.mk ['"', 'a', '\\', '"', 'b', '"'])
        = .string (String.mk ['a', '\\', '"', 'b'])
    ∧ '\\' ∈ ['a', '\\', '"', 'b'] := by
  refine ⟨?_, ?_, by with_unfolding_all rfl, by decide⟩
  · show (stringLitBody (body ++ ['"'])).isSome = true
    rw [h]
    rfl
  · show CNode.string (String.mk ((('"' :: body ++ ['"']).drop 1).dropLast))
        = CNode.string (String.mk body)
    rw [List.cons_append, List.drop_one, List.tail_cons, List.dropLast_concat]

/-- Witness: the stripping theorem at the body of the literal "a\"b". -/
theorem claim10_no_unescaping_witness :
    isStringLit ('"' :: ['a', '\\', '"', 'b'] ++ ['"']) = true
    ∧ stringAction (String.mk ('"' :: ['a', '\\', '"', 'b'] ++ ['"']))
        = .string (String.mk ['a', '\\', '"', 'b']) :=
  ⟨(claim10_no_unescaping ['a', '\\', '"', 'b'] (by with_unfolding_all rfl)).1,
   (claim10_no_unescaping ['a', '\\', '"', 'b'] (by with_unfolding_all rfl)).2.1⟩

end Rabbit
